import Mathlib

/-!
Verification of the investment-dashboard metrics core
(`src/investment_dashboard.py`) against its natural-language specification.

The script's numeric columns are IEEE floats; here exact values are
rationals and the float special values produced by division are made
explicit with `FVal` (`inf`, `ninf`, `nan`).  Dates are modelled as day
numbers (`Nat`); a pandas `Timedelta.days` difference is an integer.
Missing values (pandas `NaN` produced by a guard) are `Option`/`FVal.nan`
exactly where the script produces them.
-/

/-- A float value as produced by the script's arithmetic: a finite rational,
positive or negative infinity, or NaN. -/
inductive FVal where
  | num (q : ℚ)
  | inf
  | ninf
  | nan
deriving DecidableEq, Repr

/-- IEEE float division as performed by pandas/numpy on the script's columns:
a finite quotient when the divisor is nonzero, otherwise a signed infinity
(or NaN for 0/0).  No exception is raised and no missing-value marker is
produced. -/
def fdiv (a b : ℚ) : FVal :=
  if b ≠ 0 then FVal.num (a / b)
  else if 0 < a then FVal.inf
  else if a < 0 then FVal.ninf
  else FVal.nan

/-- One row of the normalized table (`df` after lines 36-38 of the script).
`fund` is `none` when the Fund Name cell is missing; `status` is the
"Realized / Unrealized" cell as a string (the script applies `astype(str)`
to it). -/
structure InvRecord where
  name : String
  fund : Option String
  cost : ℚ
  fairValue : ℚ
  date : ℕ
  status : String
deriving DecidableEq, Repr

/-- Sample record builder used by concrete test inputs. -/
def mkRec (c fv : ℚ) (d : ℕ) : InvRecord :=
  { name := "X", fund := some "F", cost := c, fairValue := fv, date := d, status := "" }

/-- Line 40: `df["MOIC"] = df["Fair Value"] / df["Cost"]` (element-wise float
division, no zero-cost guard). -/
def moic (r : InvRecord) : FVal := fdiv r.fairValue r.cost

/-- Line 43: `df["ROI"] = (df["Fair Value"] - df["Cost"]) / df["Cost"]`
(element-wise float division, no zero-cost guard). -/
def roi (r : InvRecord) : FVal := fdiv (r.fairValue - r.cost) r.cost

/-- `(today - row["Date"]).days` as a signed integer. -/
def daysHeld (today : ℕ) (r : InvRecord) : ℤ := (today : ℤ) - (r.date : ℤ)

/-- 365.25 as an exact rational. -/
def yearQ : ℚ := 1461 / 4

/-- Lines 44-48: the Annualized ROI lambda.
`(((fv / cost) - 1) / (days / 365.25)) if cost > 0 and days > 0 else nan`.
The guard makes the result an explicit missing value (`none`, pandas NaN)
whenever `cost ≤ 0` or the holding period is non-positive. -/
def annualizedRoi (today : ℕ) (r : InvRecord) : Option ℚ :=
  if 0 < r.cost ∧ 0 < daysHeld today r then
    some ((r.fairValue / r.cost - 1) / ((daysHeld today r : ℚ) / yearQ))
  else none

/-- Line 71: `total_invested = df_filtered["Cost"].sum()`. -/
def totalCost (recs : List InvRecord) : ℚ := (recs.map fun r => r.cost).sum

/-- Line 72: `total_fair_value = df_filtered["Fair Value"].sum()`. -/
def totalFairValue (recs : List InvRecord) : ℚ := (recs.map fun r => r.fairValue).sum

/-- Line 73: `portfolio_moic = total_fair_value / total_invested if
total_invested != 0 else 0`.  Note the `else 0`: a zero total cost yields the
plain number 0, not a missing value. -/
def portfolio_moic (recs : List InvRecord) : FVal :=
  if totalCost recs ≠ 0 then FVal.num (totalFairValue recs / totalCost recs)
  else FVal.num 0

/-- Line 74: `portfolio_roi = (total_fair_value - total_invested) /
total_invested` — unguarded float division. -/
def portfolio_roi (recs : List InvRecord) : FVal :=
  fdiv (totalFairValue recs - totalCost recs) (totalCost recs)

/-- `numpy.average(values, weights=...)` on float data: raises
`ZeroDivisionError` (modelled as `Except.error`) when the weights sum to
zero; otherwise returns `sum(v*w)/sum(w)`, in which any NaN value (`none`)
poisons the sum — even under weight 0, since `0 * NaN = NaN`. -/
def npAverage (items : List (Option ℚ × ℚ)) : Except Unit FVal :=
  if (items.map fun p => p.2).sum = 0 then .error ()
  else if items.any fun p => p.1.isNone then .ok FVal.nan
  else .ok (FVal.num ((items.map fun p => p.1.getD 0 * p.2).sum /
    (items.map fun p => p.2).sum))

/-- The (Annualized ROI, Cost) pairs of a record list, i.e. the two columns
fed to `np.average`. -/
def annItems (today : ℕ) (recs : List InvRecord) : List (Option ℚ × ℚ) :=
  recs.map fun r => (annualizedRoi today r, r.cost)

/-- Line 76: `portfolio_annualized_roi = np.average(df_filtered["Annualized
ROI"], weights=df_filtered["Cost"])` — no exclusion of NaN entries and no
zero-weight guard. -/
def portfolio_annualized_roi (today : ℕ) (recs : List InvRecord) :
    Except Unit FVal :=
  npAverage (annItems today recs)

/-- Lines 103-105: the per-fund lambda
`np.average(x["Annualized ROI"], weights=x["Cost"]) if x["Cost"].sum() > 0
else np.nan`, applied to one fund's records. -/
def roi_fund (today : ℕ) (recs : List InvRecord) : Except Unit FVal :=
  if 0 < totalCost recs then npAverage (annItems today recs) else .ok FVal.nan

/-- C1 counterexample input: cost 0, fair value 250. -/
def zeroCostRec : InvRecord := mkRec 0 250 0

/-- C5 counterexample input: a single zero-cost record with fair value 5. -/
def zeroCostPf : List InvRecord := [mkRec 0 5 0]

/-- Python's `str.strip()` (for the ASCII data of this spreadsheet): drop
leading and trailing whitespace characters. -/
def pyStrip (s : String) : String :=
  String.mk (((s.data.dropWhile Char.isWhitespace).reverse.dropWhile
    Char.isWhitespace).reverse)

/-- Python's `str.lower()` (for the ASCII data of this spreadsheet). -/
def pyLower (s : String) : String := String.mk (s.data.map Char.toLower)

/-- A raw spreadsheet cell as pandas holds it after `read_excel`: a number,
a string, an already-parsed date (day number), or a missing value (NaN). -/
inductive Cell where
  | num (q : ℚ)
  | str (s : String)
  | date (d : ℕ)
  | null
deriving DecidableEq, Repr

/-- `pd.isna` on a cell, as used by `dropna`. -/
def Cell.isNull : Cell → Bool
  | Cell.null => true
  | _ => false

/-- `pd.to_datetime(..., errors="coerce")` on one cell: an already-typed
date keeps its day number; anything else (including a string pandas cannot
parse) coerces to NaT (`none`).  Calendar strings that pandas can parse are
modelled as already-typed `Cell.date` values. -/
def parseDateCell : Cell → Option ℕ
  | Cell.date d => some d
  | _ => none

/-- A raw input row: the cells of the five canonical columns. -/
structure RawRow where
  name : Cell
  cost : Cell
  fairValue : Cell
  date : Cell
  fund : Cell
deriving DecidableEq, Repr

/-- Lines 36-38: `df.dropna(subset=["Cost", "Fair Value", "Date"])`, then
`to_datetime(errors="coerce")` on Date, then `dropna(subset=["Date"])`.
Only *null* cells are dropped by the first step; a non-numeric string in
Cost or Fair Value survives normalization.  No drop count is recorded
anywhere. -/
def normalizeRows (rows : List RawRow) : List RawRow :=
  ((rows.filter fun r =>
      !r.cost.isNull && !r.fairValue.isNull && !r.date.isNull).filter
    fun r => (parseDateCell r.date).isSome)

/-- Line 32: `required_columns = ["Investment Name", "Cost", "Fair Value",
"Date", "Fund Name"]`. -/
def required_columns : List String :=
  ["Investment Name", "Cost", "Fair Value", "Date", "Fund Name"]

/-- Lines 30 and 33: headers are whitespace-stripped, then every required
column must be present. -/
def hasRequiredColumns (headers : List String) : Bool :=
  required_columns.all fun c => (headers.map pyStrip).contains c

/-- Lines 33-38 as a pipeline: a missing required column is fatal for the
whole dataset — the error branch is taken and no row is normalized, no
metric column is computed; otherwise the cleaned rows are produced. -/
def pipeline (headers : List String) (rows : List RawRow) :
    Except String (List RawRow) :=
  if hasRequiredColumns headers then .ok (normalizeRows rows)
  else .error "MissingRequiredColumn"

/-- A well-formed input row with all five cells valid. -/
def okRow (i : ℕ) : RawRow :=
  { name := Cell.str "I", cost := Cell.num 10, fairValue := Cell.num 20,
    date := Cell.date i, fund := Cell.str "F" }

/-- C7 counterexample row: its Cost cell is the non-numeric string "abc". -/
def strCostRow : RawRow :=
  { name := Cell.str "I5", cost := Cell.str "abc", fairValue := Cell.num 50,
    date := Cell.date 5, fund := Cell.str "F" }

/-- A row whose Cost cell is missing (NaN). -/
def nullCostRow : RawRow :=
  { name := Cell.str "I5", cost := Cell.null, fairValue := Cell.num 50,
    date := Cell.date 5, fund := Cell.str "F" }

/-- Ten rows where row 5's Cost is a non-numeric string. -/
def strCostRows : List RawRow :=
  [okRow 1, okRow 2, okRow 3, okRow 4, strCostRow,
   okRow 6, okRow 7, okRow 8, okRow 9, okRow 10]

/-- Ten rows where row 5's Cost is missing (NaN). -/
def nullCostRows : List RawRow :=
  [okRow 1, okRow 2, okRow 3, okRow 4, nullCostRow,
   okRow 6, okRow 7, okRow 8, okRow 9, okRow 10]

/-- Line 58: the in-place rewrite
`df_filtered["Realized / Unrealized"] = ...astype(str).str.strip().str.lower()`
applied to one record. -/
def normalizeStatus (r : InvRecord) : InvRecord :=
  { r with status := pyLower (pyStrip r.status) }

/-- Line 64: `df_filtered["Fund Name"].isin(selected_funds)` for one record;
a missing fund name is never in the selection. -/
def fundMatch (selected : List String) (r : InvRecord) : Bool :=
  match r.fund with
  | some f => selected.contains f
  | none => false

/-- Line 50: `unique_funds = sorted(df["Fund Name"].dropna().unique())`. -/
def unique_funds (recs : List InvRecord) : List String :=
  ((recs.filterMap fun r => r.fund).dedup).insertionSort (· ≤ ·)

/-- Lines 54-66: the filter block.  `hasStatusCol` says whether the
"Realized / Unrealized" column exists in the table.  When it does, that
column is first rewritten in place to its stripped-lowercased form (line 58)
— note this happens even when the radio selection is "All" — then, for a
non-"All" selection, rows whose normalized status equals the lowercased
selection are kept (lines 59-61); finally rows whose Fund Name is in the
current fund selection are kept (line 64). -/
def applyFilters (hasStatusCol : Bool) (realizationFilter : String)
    (selectedFunds : List String) (recs : List InvRecord) : List InvRecord :=
  let recs1 := if hasStatusCol then recs.map normalizeStatus else recs
  let recs2 :=
    if hasStatusCol && (realizationFilter != "All") then
      recs1.filter fun r => r.status == pyLower realizationFilter
    else recs1
  recs2.filter (fundMatch selectedFunds)

/-- C9 counterexample record: status cell " REALIZED " (upper case with
surrounding whitespace). -/
def statusRec : InvRecord :=
  { name := "X", fund := some "F", cost := 100, fairValue := 150, date := 0,
    status := " REALIZED " }

/-- C10 witness record: status cell " ReAlIzEd ". -/
def mixedCaseRec : InvRecord :=
  { name := "Y", fund := some "F", cost := 100, fairValue := 150, date := 0,
    status := " ReAlIzEd " }

/-- The distinct investment dates of the records in ascending order: the
group keys of `groupby("Date")` after `sort_index()` (same-day records are
merged into one group). -/
def sortedDates (recs : List InvRecord) : List ℕ :=
  ((recs.map fun r => r.date).dedup).insertionSort (· ≤ ·)

/-- The summed Cost of the records falling on one date (one aggregated
`groupby` cell). -/
def costAt (recs : List InvRecord) (d : ℕ) : ℚ :=
  ((recs.filter fun r => r.date == d).map fun r => r.cost).sum

/-- The summed Fair Value of the records falling on one date. -/
def fairValueAt (recs : List InvRecord) (d : ℕ) : ℚ :=
  ((recs.filter fun r => r.date == d).map fun r => r.fairValue).sum

/-- `groupby("Date").agg({"Cost": "sum", "Fair Value": "sum"}).sort_index()`:
one `(date, cost sum, fair-value sum)` row per distinct date, ascending. -/
def groupedByDate (recs : List InvRecord) : List (ℕ × ℚ × ℚ) :=
  (sortedDates recs).map fun d => (d, costAt recs d, fairValueAt recs d)

/-- The running `cumsum()` over the two numeric columns, starting from the
accumulated totals `(c, v)`. -/
def cumFrom (c v : ℚ) : List (ℕ × ℚ × ℚ) → List (ℕ × ℚ × ℚ)
  | [] => []
  | (d, dc, dv) :: rest => (d, c + dc, v + dv) :: cumFrom (c + dc) (v + dv) rest

/-- Line 130: `cost_value_df = df_filtered.groupby("Date").agg({"Cost":
"sum", "Fair Value": "sum"}).sort_index().cumsum().reset_index()`. -/
def cost_value_df (recs : List InvRecord) : List (ℕ × ℚ × ℚ) :=
  cumFrom 0 0 (groupedByDate recs)

/-- C8 witness input: three records, two sharing a date. -/
def cumWitnessRecs : List InvRecord := [mkRec 10 5 0, mkRec 1 2 0, mkRec 3 4 7]

/-- Modelled from the spec: the script imports `numpy_financial` but
contains no IRR computation, so the dated cash-flow machinery of spec §4.3
is modelled from the spec's words.  A dated cash-flow event: a signed
amount on a day. -/
structure CashFlow where
  amount : ℚ
  day : ℕ
deriving DecidableEq, Repr

/-- Modelled from the spec: "Merge same-date events by summation" — one
event per distinct day (ascending), carrying the sum of that day's
amounts. -/
def mergeEvents (flows : List CashFlow) : List CashFlow :=
  (((flows.map fun f => f.day).dedup).insertionSort (· ≤ ·)).map fun d =>
    ⟨((flows.filter fun f => f.day == d).map fun f => f.amount).sum, d⟩

/-- Modelled from the spec: the single-record schedule
`[-cost at investmentDate, fairValue at evaluationDate]`. -/
def recordSchedule (r : InvRecord) (evalDay : ℕ) : List CashFlow :=
  [⟨-r.cost, r.date⟩, ⟨r.fairValue, evalDay⟩]

/-- Modelled from the spec: the group schedule — "for every record emit
`(-cost, investmentDate)`; emit one additional terminal event
`(sum of fairValues in group, evaluationDate)`", merged by date. -/
def groupSchedule (recs : List InvRecord) (evalDay : ℕ) : List CashFlow :=
  mergeEvents ((recs.map fun r => ⟨-r.cost, r.date⟩) ++
    [⟨totalFairValue recs, evalDay⟩])

/-- Modelled from the spec: the net present value of a dated schedule at
rate `r`, discounting each amount by `(1+r) ^ (day / 365.25)`. -/
noncomputable def npv (flows : List CashFlow) (r : ℝ) : ℝ :=
  (flows.map fun f => (f.amount : ℝ) / (1 + r) ^ ((f.day : ℝ) / 365.25)).sum

/-- Modelled from the spec: `r` is an IRR of the schedule when it is an
admissible rate (`r > -1`) making the NPV zero. -/
def IsIrrOf (flows : List CashFlow) (r : ℝ) : Prop :=
  -1 < r ∧ npv flows r = 0

/-- Modelled from the spec: "if all cash flows are non-negative/non-positive
(no sign change ⇒ no real solution in general)" — the sign-change test. -/
def hasSignChange (flows : List CashFlow) : Bool :=
  (flows.any fun f => 0 < f.amount) && (flows.any fun f => f.amount < 0)

open Classical in
/-- Modelled from the spec: the dated-cash-flow IRR solver.  It returns a
root only when the sign pattern admits one and the root-finder converges to
an existing root; in every failure case (no sign change, no root) it
reports `IrrDidNotConverge` as the undefined marker `none` — never a number
and never a crash. -/
noncomputable def solveIrr (flows : List CashFlow) : Option ℝ :=
  if h : hasSignChange flows = true ∧ ∃ r : ℝ, IsIrrOf flows r then
    some h.2.choose
  else none

/-- C3 record A: cost 100 at day 0 growing to 1600 over 4 years
(IRR 100%). -/
def recA : InvRecord := mkRec 100 1600 0

/-- C3 record B: cost 100 at day 0 still worth 100 after 4 years
(IRR 0%). -/
def recB : InvRecord := mkRec 100 100 0

/-- **C1 (counterexample).** The claim states that with `cost == 0` both MOIC
and ROI are an explicit missing-value marker, "not NaN or infinity".  On the
record with cost 0 and fair value 250 the script's columns hold positive
infinity — an ordinary propagating float value, not a missing-value marker
(`FVal.nan` is the script's marker, and the result is not that either). -/
theorem moic_zero_cost_infinity :
    moic zeroCostRec = FVal.inf ∧ roi zeroCostRec = FVal.inf ∧
      FVal.inf ≠ FVal.nan := by
  refine ⟨?_, ?_, by decide⟩ <;> norm_num [moic, roi, zeroCostRec, mkRec, fdiv]

/-- **C1 (amended).** For every record, when `cost ≠ 0` MOIC equals
`fairValue / cost` and ROI equals `(fairValue - cost) / cost`; when
`cost = 0` both columns hold an IEEE special value determined by the sign of
`fairValue` (`+inf` / `-inf` / `NaN`), not an explicit missing-value
marker. -/
theorem moic_roi_formulas (r : InvRecord) :
    (r.cost ≠ 0 →
      moic r = FVal.num (r.fairValue / r.cost) ∧
      roi r = FVal.num ((r.fairValue - r.cost) / r.cost))
    ∧ (r.cost = 0 →
      moic r = (if 0 < r.fairValue then FVal.inf
        else if r.fairValue < 0 then FVal.ninf else FVal.nan) ∧
      roi r = (if 0 < r.fairValue then FVal.inf
        else if r.fairValue < 0 then FVal.ninf else FVal.nan)) := by
  constructor
  · intro h
    exact ⟨by simp [moic, fdiv, h], by simp [roi, fdiv, h]⟩
  · intro h
    constructor
    · simp [moic, fdiv, h]
    · simp [roi, fdiv, h]

/-- Witness for `moic_roi_formulas` at cost 100, fair value 250. -/
theorem moic_roi_formulas_witness :
    (100 : ℚ) ≠ 0 ∧
      (moic (mkRec 100 250 0) = FVal.num ((250 : ℚ) / 100) ∧
       roi (mkRec 100 250 0) = FVal.num (((250 : ℚ) - 100) / 100)) :=
  ⟨by norm_num, (moic_roi_formulas (mkRec 100 250 0)).1 (by norm_num [mkRec])⟩

/-- **C4 (confirmed).** For every record with `cost > 0` and a positive
holding period, the per-record annualized ROI equals
`ROI / holdingYears` with `holdingYears = days / 365.25`; when the holding
period is non-positive or the cost is non-positive, the annualized ROI is
the explicit missing value `none`. -/
theorem annualizedRoi_spec (today : ℕ) (r : InvRecord) :
    (0 < r.cost → 0 < daysHeld today r →
      annualizedRoi today r =
        some ((r.fairValue - r.cost) / r.cost / ((daysHeld today r : ℚ) / yearQ)))
    ∧ (r.cost ≤ 0 ∨ daysHeld today r ≤ 0 → annualizedRoi today r = none) := by
  constructor
  · intro hc hd
    have hc0 : r.cost ≠ 0 := ne_of_gt hc
    have : r.fairValue / r.cost - 1 = (r.fairValue - r.cost) / r.cost := by
      field_simp
    simp [annualizedRoi, hc, hd, this]
  · intro h
    rcases h with h | h
    · simp [annualizedRoi, not_lt.mpr h]
    · have : ¬ (0 < r.cost ∧ 0 < daysHeld today r) := by
        rintro ⟨_, hd⟩; exact absurd hd (not_lt.mpr h)
      simp [annualizedRoi, this]

/-- Witness for `annualizedRoi_spec`: cost 100, fair value 150, held
1461 days (exactly 4 years) as of day 1461. -/
theorem annualizedRoi_spec_witness :
    (0 : ℚ) < 100 ∧ (0 : ℤ) < daysHeld 1461 (mkRec 100 150 0) ∧
      annualizedRoi 1461 (mkRec 100 150 0) =
        some (((150 : ℚ) - 100) / 100 / ((daysHeld 1461 (mkRec 100 150 0) : ℚ) / yearQ)) :=
  ⟨by norm_num, by decide,
    (annualizedRoi_spec 1461 (mkRec 100 150 0)).1 (by norm_num [mkRec]) (by decide)⟩

/-- The weight column of `annItems` is the cost column. -/
theorem annItems_weights (today : ℕ) (recs : List InvRecord) :
    ((annItems today recs).map fun p => p.2).sum = totalCost recs := by
  unfold annItems totalCost
  rw [List.map_map]
  rfl

/-- The value-times-weight column of `annItems`. -/
theorem annItems_values (today : ℕ) (recs : List InvRecord) :
    (annItems today recs).map (fun p => p.1.getD 0 * p.2) =
      recs.map fun r => (annualizedRoi today r).getD 0 * r.cost := by
  unfold annItems
  rw [List.map_map]
  rfl

/-- The NaN test performed by the float sum inside `np.average`. -/
theorem annItems_has_none (today : ℕ) (recs : List InvRecord) :
    ((annItems today recs).any fun p => p.1.isNone) = true ↔
      ∃ r ∈ recs, annualizedRoi today r = none := by
  simp [annItems, List.any_eq_true, Option.isNone_iff_eq_none]

/-- **C2 (counterexample).** The claim states every record with undefined
annualized ROI (in particular a zero-cost record) is excluded from the
weighted average.  With one normal record (cost 100, fair value 150, held
4 years, annualized ROI 1/8) and one zero-cost record, the script's
`np.average` returns NaN — the zero-cost record is not excluded, it poisons
the aggregate, which the claim says should be 1/8. -/
theorem weighted_roi_no_exclusion_cex :
    annualizedRoi 1461 (mkRec 100 150 0) = some (1 / 8) ∧
    annualizedRoi 1461 (mkRec 0 50 0) = none ∧
    portfolio_annualized_roi 1461 [mkRec 100 150 0, mkRec 0 50 0] =
      .ok FVal.nan ∧
    FVal.nan ≠ FVal.num (1 / 8) := by
  refine ⟨?_, ?_, ?_, by decide⟩
  · norm_num [annualizedRoi, daysHeld, yearQ, mkRec]
  · norm_num [annualizedRoi, daysHeld, mkRec]
  · norm_num [portfolio_annualized_roi, npAverage, annItems, annualizedRoi,
      daysHeld, yearQ, mkRec]

/-- **C2 (amended).** The weighted portfolio (and per-fund) annualized ROI is
`np.average` over ALL records: when every record's annualized ROI is defined
and the total cost is nonzero it equals `Σ(annualizedRoi_i * cost_i) /
Σ(cost_i)`, but a record with undefined annualized ROI is NOT excluded — any
such record makes the whole average NaN; the per-fund value follows the same
formula whenever the fund's total cost is positive (and is NaN otherwise). -/
theorem weighted_roi_formulas (today : ℕ) (recs : List InvRecord) :
    ((∀ r ∈ recs, (annualizedRoi today r).isSome) → totalCost recs ≠ 0 →
      portfolio_annualized_roi today recs =
        .ok (FVal.num
          ((recs.map fun r => (annualizedRoi today r).getD 0 * r.cost).sum /
            totalCost recs)))
    ∧ ((∃ r ∈ recs, annualizedRoi today r = none) → totalCost recs ≠ 0 →
      portfolio_annualized_roi today recs = .ok FVal.nan)
    ∧ (0 < totalCost recs →
      roi_fund today recs = portfolio_annualized_roi today recs)
    ∧ (¬ 0 < totalCost recs → roi_fund today recs = .ok FVal.nan) := by
  refine ⟨?_, ?_, ?_, ?_⟩
  · intro hall hC
    have hno : ¬ (((annItems today recs).any fun p => p.1.isNone) = true) := by
      rw [annItems_has_none]
      rintro ⟨r, hr, he⟩
      have hs := hall r hr
      rw [he] at hs
      simp at hs
    unfold portfolio_annualized_roi npAverage
    rw [if_neg, if_neg hno, annItems_values, annItems_weights]
    rw [annItems_weights]
    exact hC
  · intro hex hC
    unfold portfolio_annualized_roi npAverage
    rw [if_neg, if_pos ((annItems_has_none today recs).mpr hex)]
    rw [annItems_weights]
    exact hC
  · intro h
    unfold roi_fund portfolio_annualized_roi
    rw [if_pos h]
  · intro h
    unfold roi_fund
    rw [if_neg h]

/-- Witness for `weighted_roi_formulas`: two defined records, total cost
400. -/
theorem weighted_roi_formulas_witness :
    (∀ r ∈ [mkRec 100 150 0, mkRec 300 300 0],
      (annualizedRoi 1461 r).isSome) ∧
    totalCost [mkRec 100 150 0, mkRec 300 300 0] ≠ 0 ∧
    portfolio_annualized_roi 1461 [mkRec 100 150 0, mkRec 300 300 0] =
      .ok (FVal.num
        (([mkRec 100 150 0, mkRec 300 300 0].map
            fun r => (annualizedRoi 1461 r).getD 0 * r.cost).sum /
          totalCost [mkRec 100 150 0, mkRec 300 300 0])) := by
  have h1 : ∀ r ∈ [mkRec 100 150 0, mkRec 300 300 0],
      (annualizedRoi 1461 r).isSome := by
    intro r hr
    simp only [List.mem_cons, List.not_mem_nil, or_false] at hr
    rcases hr with h | h <;>
      · subst h; norm_num [annualizedRoi, daysHeld, mkRec]
  have h2 : totalCost [mkRec 100 150 0, mkRec 300 300 0] ≠ 0 := by
    norm_num [totalCost, mkRec]
  exact ⟨h1, h2,
    (weighted_roi_formulas 1461 [mkRec 100 150 0, mkRec 300 300 0]).1 h1 h2⟩

/-- **C5 (counterexample).** The claim states a guard condition never yields a
silent zero.  On a portfolio whose total cost is 0 the script's
`portfolio_moic` is literally the number 0 (the `else 0` branch of line 73),
not a missing value. -/
theorem portfolio_moic_silent_zero_cex :
    portfolio_moic zeroCostPf = FVal.num 0 ∧ FVal.num 0 ≠ FVal.nan := by
  constructor
  · norm_num [portfolio_moic, totalCost, zeroCostPf, mkRec]
  · decide

/-- **C5 (amended).** Per-record guards do yield an explicit missing value
(the annualized-ROI lambda returns NaN), but the aggregate layer does not
follow the claimed policy: a zero total cost makes `portfolio_moic` a silent
0 and makes `portfolio_roi` an IEEE infinity (for positive total fair
value), `np.average` raises on zero total weight, and an undefined
per-record annualized ROI is propagated as NaN into the weighted average
rather than excluded. -/
theorem guard_policy (today : ℕ) (recs : List InvRecord) (r : InvRecord) :
    (¬ (0 < r.cost ∧ 0 < daysHeld today r) → annualizedRoi today r = none)
    ∧ (totalCost recs = 0 → portfolio_moic recs = FVal.num 0)
    ∧ (totalCost recs = 0 → 0 < totalFairValue recs →
        portfolio_roi recs = FVal.inf)
    ∧ (totalCost recs = 0 →
        portfolio_annualized_roi today recs = .error ())
    ∧ (totalCost recs ≠ 0 → (∃ x ∈ recs, annualizedRoi today x = none) →
        portfolio_annualized_roi today recs = .ok FVal.nan) := by
  refine ⟨?_, ?_, ?_, ?_, ?_⟩
  · intro h
    simp [annualizedRoi, h]
  · intro h
    simp [portfolio_moic, h]
  · intro h hfv
    have : totalFairValue recs - totalCost recs = totalFairValue recs := by
      rw [h, sub_zero]
    simp [portfolio_roi, fdiv, h, this, hfv]
  · intro h
    unfold portfolio_annualized_roi npAverage
    rw [if_pos]
    rw [annItems_weights]
    exact h
  · intro hC hex
    unfold portfolio_annualized_roi npAverage
    rw [if_neg, if_pos ((annItems_has_none today recs).mpr hex)]
    rw [annItems_weights]
    exact hC

/-- Witness for `guard_policy`: the silent-zero branch at a concrete
portfolio. -/
theorem guard_policy_witness :
    totalCost zeroCostPf = 0 ∧ portfolio_moic zeroCostPf = FVal.num 0 := by
  have h : totalCost zeroCostPf = 0 := by
    norm_num [totalCost, zeroCostPf, mkRec]
  exact ⟨h, (guard_policy 0 zeroCostPf (mkRec 0 5 0)).2.1 h⟩

/-- **C6 (confirmed).** If any of the five canonical columns cannot be found
among the (whitespace-stripped) input headers, the whole dataset fails with
the MissingRequiredColumn error: the pipeline returns the error before any
row is normalized or any metric is computed. -/
theorem missing_column_fatal (headers : List String) (rows : List RawRow)
    (h : ∃ c ∈ required_columns, c ∉ headers.map pyStrip) :
    pipeline headers rows = .error "MissingRequiredColumn" := by
  obtain ⟨c, hc, hnot⟩ := h
  have hb : ¬ (hasRequiredColumns headers = true) := by
    simp only [hasRequiredColumns, List.all_eq_true]
    intro hall
    exact hnot (by simpa using hall c hc)
  simp [pipeline, hb]

/-- Witness for `missing_column_fatal`: a file missing the "Fair Value"
column. -/
theorem missing_column_fatal_witness :
    (∃ c ∈ required_columns,
      c ∉ ["Investment Name", "Cost", "Date", "Fund Name"].map pyStrip) ∧
    pipeline ["Investment Name", "Cost", "Date", "Fund Name"] [okRow 1] =
      .error "MissingRequiredColumn" := by
  have h : ∃ c ∈ required_columns,
      c ∉ ["Investment Name", "Cost", "Date", "Fund Name"].map pyStrip := by
    refine ⟨"Fair Value", by decide, by decide⟩
  exact ⟨h, missing_column_fatal _ [okRow 1] h⟩

/-- **C7 (counterexample).** The claim states a 10-row dataset whose row 5
has a non-numeric cost yields exactly 9 normalized records.  The script's
row cleaning only drops *null* cells, so the row whose Cost is the string
"abc" survives: all 10 rows are normalized (and the later float division on
that column would raise, escaping the claimed isolation). -/
theorem row_drop_cex :
    (normalizeRows strCostRows).length = 10 ∧
    strCostRow ∈ normalizeRows strCostRows := by
  constructor <;> decide

/-- **C7 (amended).** A row whose cost, fair value or date cell is *missing*
(null), or whose date does not parse, is excluded without failing the batch
— ten rows where row 5 has a null cost yield exactly 9 normalized records —
but a row with a non-numeric *string* cost is not excluded, and no dropped
row count is reported (the script records none). -/
theorem row_cleaning_amended :
    (∀ rows : List RawRow, normalizeRows rows = rows.filter fun r =>
      (!r.cost.isNull && !r.fairValue.isNull && !r.date.isNull) &&
        (parseDateCell r.date).isSome) ∧
    (normalizeRows nullCostRows).length = 9 ∧
    strCostRow ∈ normalizeRows strCostRows := by
  refine ⟨?_, by decide, by decide⟩
  intro rows
  unfold normalizeRows
  rw [List.filter_filter]
  refine List.filter_congr ?_
  intro x _
  rw [Bool.and_comm]

/-- **C9 (counterexample).** The claim states any omitted filter criterion
passes all records through unchanged.  With every criterion omitted (radio
"All", all funds selected) the script still rewrites the Realized /
Unrealized column in place: the record with status " REALIZED " comes out
with status "realized" — changed, not passed through unchanged. -/
theorem filters_rewrite_status_cex :
    applyFilters true "All" ["F"] [statusRec] =
      [{ statusRec with status := "realized" }] ∧
    applyFilters true "All" ["F"] [statusRec] ≠ [statusRec] := by
  constructor <;> decide

/-- With the status column present, the filter block equals one filter, over
the status-normalized records, of the conjunction of the status test and the
fund test. -/
theorem applyFilters_true (f : String) (sel : List String)
    (recs : List InvRecord) :
    applyFilters true f sel recs =
      (recs.map normalizeStatus).filter fun r =>
        ((f == "All") || (r.status == pyLower f)) && fundMatch sel r := by
  by_cases h : f = "All"
  · subst h
    simp [applyFilters]
  · have hb : (f == "All") = false := beq_eq_false_iff_ne.mpr h
    have hb2 : (f != "All") = true := by simp [bne, hb]
    simp only [applyFilters, hb2, Bool.and_true, if_true, Bool.true_and,
      if_pos]
    rw [List.filter_filter]
    refine List.filter_congr ?_
    intro x _
    rw [hb, Bool.false_or, Bool.and_comm]

/-- **C9 (amended).** Filtering is a pure function of its input (the source
sequence is never mutated; the script filters a copy).  When the Realized /
Unrealized column is absent, the realization criterion is ignored and only
the fund criterion applies.  When the column is present, the supplied
criteria compose as a logical AND of the status test and the fund test —
but over the status-normalized copies of the records, so an omitted
realization criterion ("All") does not pass records through unchanged; and
a record with a missing Fund Name is dropped even when all (non-null) funds
are selected. -/
theorem applyFilters_spec :
    (∀ (f : String) (sel : List String) (recs : List InvRecord),
      applyFilters false f sel recs = recs.filter (fundMatch sel))
    ∧ (∀ (f : String) (sel : List String) (recs : List InvRecord),
      applyFilters true f sel recs =
        (recs.map normalizeStatus).filter fun r =>
          ((f == "All") || (r.status == pyLower f)) && fundMatch sel r)
    ∧ (∀ recs : List InvRecord,
      applyFilters true "All" (unique_funds recs) recs =
        (recs.filter fun r => r.fund.isSome).map normalizeStatus) := by
  refine ⟨?_, applyFilters_true, ?_⟩
  · intro f sel recs
    simp [applyFilters]
  · intro recs
    rw [applyFilters_true "All" (unique_funds recs) recs]
    have hall : ∀ x ∈ recs.map normalizeStatus,
        (((("All" : String) == "All") || (x.status == pyLower "All")) &&
          fundMatch (unique_funds recs) x) = fundMatch (unique_funds recs) x := by
      intro x _
      simp
    rw [List.filter_congr hall, List.filter_map]
    have hfm : ∀ x ∈ recs,
        (fundMatch (unique_funds recs) ∘ normalizeStatus) x = x.fund.isSome := by
      intro x hx
      cases hfund : x.fund with
      | none => simp [Function.comp, fundMatch, normalizeStatus, hfund]
      | some g =>
        have hg : g ∈ unique_funds recs := by
          unfold unique_funds
          rw [(List.perm_insertionSort (· ≤ ·) _).mem_iff, List.mem_dedup,
            List.mem_filterMap]
          exact ⟨x, hx, hfund⟩
        simp [Function.comp, fundMatch, normalizeStatus, hfund, hg]
    rw [List.filter_congr hfm]

/-- **C10 (confirmed).** The Realized/Unrealized filter matches a record's
status cell case-insensitively and after stripping surrounding whitespace:
a record whose stripped-lowercased status equals the lowercased selection
(and whose fund is selected) is retained — in its normalized form, since
line 58 rewrites the column. -/
theorem realization_filter_normalizes (f : String) (sel : List String)
    (r : InvRecord)
    (hf : f = "Realized" ∨ f = "Unrealized")
    (hs : pyLower (pyStrip r.status) = pyLower f)
    (hfund : fundMatch sel r = true) :
    applyFilters true f sel [r] = [normalizeStatus r] := by
  have hb : (f == "All") = false := by
    rcases hf with h | h <;> subst h <;> decide
  have hfund2 : fundMatch sel (normalizeStatus r) = true := hfund
  have hstat : (normalizeStatus r).status = pyLower f := by
    simp [normalizeStatus, hs]
  rw [applyFilters_true]
  simp [hb, hstat, hfund2]

/-- Witness for `realization_filter_normalizes`: status " ReAlIzEd " with
the "Realized" radio selection. -/
theorem realization_filter_normalizes_witness :
    (("Realized" : String) = "Realized" ∨ ("Realized" : String) = "Unrealized") ∧
    pyLower (pyStrip mixedCaseRec.status) = pyLower "Realized" ∧
    fundMatch ["F"] mixedCaseRec = true ∧
    applyFilters true "Realized" ["F"] [mixedCaseRec] =
      [normalizeStatus mixedCaseRec] :=
  ⟨Or.inl rfl, by decide, by decide,
    realization_filter_normalizes "Realized" ["F"] mixedCaseRec
      (Or.inl rfl) (by decide) (by decide)⟩

/-- The cumulative scan preserves the date column. -/
theorem cumFrom_map_fst (l : List (ℕ × ℚ × ℚ)) :
    ∀ c v : ℚ, (cumFrom c v l).map Prod.fst = l.map Prod.fst := by
  induction l with
  | nil => intro c v; simp [cumFrom]
  | cons x rest ih =>
    intro c v
    obtain ⟨d, dc, dv⟩ := x
    simp [cumFrom, ih]

/-- A cumulative scan over rows with nonnegative increments is adjacentwise
non-decreasing in both numeric columns. -/
theorem cumFrom_chain (l : List (ℕ × ℚ × ℚ)) :
    ∀ c v : ℚ, (∀ x ∈ l, 0 ≤ x.2.1 ∧ 0 ≤ x.2.2) →
      List.Chain' (fun a b : ℕ × ℚ × ℚ => a.2.1 ≤ b.2.1 ∧ a.2.2 ≤ b.2.2)
        (cumFrom c v l) := by
  induction l with
  | nil => intro c v _; simp [cumFrom]
  | cons x rest ih =>
    intro c v h
    obtain ⟨d, dc, dv⟩ := x
    rw [cumFrom, List.chain'_cons']
    refine ⟨?_, ih (c + dc) (v + dv) fun y hy => h y (List.mem_cons_of_mem _ hy)⟩
    intro y hy
    cases rest with
    | nil => simp [cumFrom] at hy
    | cons z zs =>
      obtain ⟨d2, dc2, dv2⟩ := z
      rw [cumFrom] at hy
      simp only [List.head?_cons, Option.mem_def, Option.some_inj] at hy
      subst hy
      have h2 := h (d2, dc2, dv2) (List.mem_cons_of_mem _ (List.mem_cons_self _ _))
      exact ⟨le_add_of_nonneg_right h2.1, le_add_of_nonneg_right h2.2⟩

/-- When all record costs and fair values are nonnegative, so is every
per-date aggregated row. -/
theorem groupedByDate_nonneg (recs : List InvRecord)
    (h : ∀ r ∈ recs, 0 ≤ r.cost ∧ 0 ≤ r.fairValue) :
    ∀ x ∈ groupedByDate recs, 0 ≤ x.2.1 ∧ 0 ≤ x.2.2 := by
  intro x hx
  obtain ⟨d, _, rfl⟩ := List.mem_map.mp hx
  constructor
  · apply List.sum_nonneg
    intro q hq
    obtain ⟨r, hr, rfl⟩ := List.mem_map.mp hq
    exact (h r (List.mem_of_mem_filter hr)).1
  · apply List.sum_nonneg
    intro q hq
    obtain ⟨r, hr, rfl⟩ := List.mem_map.mp hq
    exact (h r (List.mem_of_mem_filter hr)).2

/-- **C8 (confirmed).** The cumulative cost-vs-value series merges same-day
records into one group per distinct date, sorts the groups by ascending
date, and takes running cumulative sums; when every underlying cost and
fair value is nonnegative, both cumulative columns are non-decreasing along
the output. -/
theorem cumulative_series_monotone (recs : List InvRecord)
    (h : ∀ r ∈ recs, 0 ≤ r.cost ∧ 0 ≤ r.fairValue) :
    List.Chain' (fun a b : ℕ × ℚ × ℚ => a.2.1 ≤ b.2.1 ∧ a.2.2 ≤ b.2.2)
      (cost_value_df recs)
    ∧ (cost_value_df recs).map Prod.fst = sortedDates recs
    ∧ List.Sorted (· ≤ ·) (sortedDates recs)
    ∧ (sortedDates recs).Nodup := by
  refine ⟨cumFrom_chain _ 0 0 (groupedByDate_nonneg recs h), ?_, ?_, ?_⟩
  · rw [cost_value_df, cumFrom_map_fst, groupedByDate, List.map_map]
    have hfst : (Prod.fst ∘ fun d => (d, costAt recs d, fairValueAt recs d)) =
        fun d : ℕ => d := rfl
    rw [hfst]
    exact List.map_id' _
  · exact List.sorted_insertionSort (· ≤ ·) _
  · unfold sortedDates
    exact (List.perm_insertionSort (· ≤ ·) _).nodup_iff.mpr
      (List.nodup_dedup _)

/-- Witness for `cumulative_series_monotone` on three concrete records, two
of which share a date. -/
theorem cumulative_series_monotone_witness :
    (∀ r ∈ cumWitnessRecs, 0 ≤ r.cost ∧ 0 ≤ r.fairValue) ∧
    List.Chain' (fun a b : ℕ × ℚ × ℚ => a.2.1 ≤ b.2.1 ∧ a.2.2 ≤ b.2.2)
      (cost_value_df cumWitnessRecs) := by
  have h : ∀ r ∈ cumWitnessRecs, 0 ≤ r.cost ∧ 0 ≤ r.fairValue := by decide
  exact ⟨h, (cumulative_series_monotone cumWitnessRecs h).1⟩

/-- A 1461-day exponent is exactly 4 years, so the real power collapses to a
natural one. -/
theorem rpow_1461 (x : ℝ) : x ^ ((1461 : ℝ) / 365.25) = x ^ (4 : ℕ) := by
  have h : ((1461 : ℝ)) / 365.25 = ((4 : ℕ) : ℝ) := by norm_num
  rw [h, Real.rpow_natCast]

/-- A schedule whose amounts all have the same sign is rejected by the
solver: it reports the undefined marker, never a number. -/
theorem solveIrr_same_sign (flows : List CashFlow)
    (h : (flows.all fun f => 0 ≤ f.amount) = true ∨
      (flows.all fun f => f.amount ≤ 0) = true) :
    solveIrr flows = none := by
  have hsc : hasSignChange flows = false := by
    unfold hasSignChange
    rcases h with h | h
    · have hz : (flows.any fun f => decide (f.amount < 0)) = false := by
        rw [List.any_eq_false]
        intro x hx
        simp only [decide_eq_true_eq]
        exact not_lt.mpr (by simpa using List.all_eq_true.mp h x hx)
      simp [hz]
    · have hz : (flows.any fun f => decide (0 < f.amount)) = false := by
        rw [List.any_eq_false]
        intro x hx
        simp only [decide_eq_true_eq]
        exact not_lt.mpr (by simpa using List.all_eq_true.mp h x hx)
      simp [hz]
  unfold solveIrr
  rw [dif_neg]
  rintro ⟨h1, -⟩
  rw [hsc] at h1
  exact Bool.false_ne_true h1

/-- **C3 (confirmed, modelled from the spec).** The group IRR is solved over
the merged union of per-record cash-flow events (same-date events summed:
the two day-0 costs of records A and B merge into one −200 event), and it
is not the arithmetic mean of the per-record IRRs: A's IRR is 1 (100%) and
B's is 0, so their mean is 1/2, yet no rate solving the merged schedule
equals 1/2 — the merged schedule's IRR is `8.5^(1/4) − 1 ≈ 0.707`.  A
schedule with no sign change makes the solver report the undefined
`IrrDidNotConverge` marker rather than a number. -/
theorem aggregate_irr_spec :
    IsIrrOf (recordSchedule recA 1461) 1
    ∧ IsIrrOf (recordSchedule recB 1461) 0
    ∧ groupSchedule [recA, recB] 1461 = [⟨-200, 0⟩, ⟨1700, 1461⟩]
    ∧ (∀ r : ℝ, IsIrrOf (groupSchedule [recA, recB] 1461) r →
        r ≠ (1 + 0) / 2)
    ∧ IsIrrOf (groupSchedule [recA, recB] 1461)
        ((8.5 : ℝ) ^ ((1 : ℝ) / 4) - 1)
    ∧ (∀ flows : List CashFlow,
        ((flows.all fun f => 0 ≤ f.amount) = true ∨
          (flows.all fun f => f.amount ≤ 0) = true) →
        solveIrr flows = none) := by
  have hmerge : groupSchedule [recA, recB] 1461 =
      [⟨-200, 0⟩, ⟨1700, 1461⟩] := by
    norm_num [groupSchedule, mergeEvents, totalFairValue, recA, recB, mkRec,
      List.dedup, List.insertionSort, List.orderedInsert]
  refine ⟨?_, ?_, hmerge, ?_, ?_, fun flows h => solveIrr_same_sign flows h⟩
  · constructor
    · norm_num
    · unfold npv recordSchedule
      simp only [List.map_cons, List.map_nil, List.sum_cons, List.sum_nil,
        recA, mkRec]
      push_cast
      rw [rpow_1461]
      norm_num [Real.rpow_zero]
  · constructor
    · norm_num
    · unfold npv recordSchedule
      simp only [List.map_cons, List.map_nil, List.sum_cons, List.sum_nil,
        recB, mkRec]
      push_cast
      rw [rpow_1461]
      norm_num [Real.rpow_zero]
  · intro r hr heq
    obtain ⟨-, hnpv⟩ := hr
    rw [hmerge, heq] at hnpv
    unfold npv at hnpv
    simp only [List.map_cons, List.map_nil, List.sum_cons,
      List.sum_nil] at hnpv
    push_cast at hnpv
    rw [rpow_1461] at hnpv
    norm_num [Real.rpow_zero] at hnpv
  · rw [hmerge]
    have hpos : (0 : ℝ) < (8.5 : ℝ) ^ ((1 : ℝ) / 4) :=
      Real.rpow_pos_of_pos (by norm_num) _
    constructor
    · nlinarith
    · unfold npv
      simp only [List.map_cons, List.map_nil, List.sum_cons, List.sum_nil]
      push_cast
      rw [rpow_1461]
      have hbase : (1 : ℝ) + ((8.5 : ℝ) ^ ((1 : ℝ) / 4) - 1) =
          (8.5 : ℝ) ^ ((1 : ℝ) / 4) := by ring
      rw [hbase]
      have hx : ((8.5 : ℝ) ^ ((1 : ℝ) / 4)) ^ (4 : ℕ) = 8.5 := by
        rw [← Real.rpow_natCast ((8.5 : ℝ) ^ ((1 : ℝ) / 4)) 4,
          ← Real.rpow_mul (by norm_num : (0 : ℝ) ≤ 8.5)]
        norm_num
      rw [hx]
      norm_num [Real.rpow_zero]

/-- Witness for `aggregate_irr_spec`: the merged-schedule IRR really differs
from the mean of the individual IRRs, and a one-event all-positive schedule
makes the solver return the undefined marker. -/
theorem aggregate_irr_spec_witness :
    ((8.5 : ℝ) ^ ((1 : ℝ) / 4) - 1) ≠ (1 + 0) / 2 ∧
    (([⟨5, 0⟩] : List CashFlow).all fun f => 0 ≤ f.amount) = true ∧
    solveIrr [⟨5, 0⟩] = none :=
  ⟨aggregate_irr_spec.2.2.2.1 _ aggregate_irr_spec.2.2.2.2.1,
    by decide,
    aggregate_irr_spec.2.2.2.2.2 [⟨5, 0⟩] (Or.inl (by decide))⟩
